import Mathlib

/-!
# Network drop action of chaosblade-exec-os

A shallow embedding of `exec/network_drop.go`: the declarative `DropActionSpec`
(name, descriptions, example fallback) and the `NetworkDropExecutor`, whose `Exec`
checks the environment, checks the channel wiring, selects apply or revert from the
context and delegates to `Channel.Run` with a rendered argument string.

Conventions of the embedding:
* a Go `string` is a Lean `String`; a Go slice is `Option (List α)` with `none` for `nil`;
* a Go `map[string]string` is an association list with unique-key insertion and a
  lookup that yields `""` for an absent key;
* the process-wide collaborators (`util.Debug`, `channel.NewLocalChannel()`) are the
  fields of an explicit environment `Env`;
* the side effect of `Exec`, the invocation of `Channel.Run`, is recorded in the list
  `calls` of the returned `Outcome`, next to the response and the executor afterwards;
* a runtime panic (nil dereference) is the result `none`.
-/

set_option autoImplicit false

namespace ChaosBlade

/-! ## Library types used by the source (package `spec`, `util`, `path`) -/

/-- Modelled from the spec: the error kinds of the response model. `CommandNotFound` and
`ServerError` are the two kinds the executor produces itself; `Other` stands for whatever
kind a channel surfaces for an execution failure. -/
inductive ErrorKind where
  | CommandNotFound
  | ServerError
  | Other (code : Nat)
  deriving DecidableEq, Repr

/-- Modelled from the spec: the uniform response envelope
`{success, errorCode (present iff not success), message, result}` of package `spec`. -/
structure Response where
  success : Bool
  errorCode : Option ErrorKind
  message : String
  result : Option String
  deriving DecidableEq, Repr

/-- Modelled from the spec: `spec.ReturnFail(code, err)`, the failure response carrying the
given error kind and message and no result. -/
def ReturnFail (code : ErrorKind) (err : String) : Response :=
  { success := false, errorCode := some code, message := err, result := none }

/-- Modelled from the spec: the run context, a carrier of a deadline signal and of the
optional destroy marker (the UID of the experiment to revert). -/
structure Context where
  deadline : Option Nat
  destroy : Option String
  deriving DecidableEq, Repr

/-- Modelled from the spec: `spec.IsDestroy(ctx)`, the destroy marker of the context and
whether it is present. -/
def IsDestroy (ctx : Context) : String × Bool :=
  match ctx.destroy with
  | some suid => (suid, true)
  | none => ("", false)

/-- A Go `map[string]string`: pairs with pairwise distinct keys, in no meaningful order. -/
abbrev GoMap := List (String × String)

/-- The map index expression `m[k]`: the value under `k`, or `""` when `k` is absent. -/
def GoMap.get (m : GoMap) (k : String) : String :=
  match m.find? (fun kv => kv.1 == k) with
  | some kv => kv.2
  | none => ""

/-- The map assignment `m[k] = v`: any previous entry of `k` is replaced. -/
def GoMap.set (m : GoMap) (k v : String) : GoMap :=
  (k, v) :: m.filter (fun kv => !(kv.1 == k))

/-- The resolved model `spec.ExpModel` handed to the executor by the dispatcher. -/
structure ExpModel where
  Target : String
  Scope : String
  ActionName : String
  ActionFlags : GoMap
  deriving DecidableEq, Repr

/-- The capability interface `spec.Channel`: run an executable with an argument string,
report the script root and report whether a command is available. -/
structure Channel where
  Run : Context → String → String → Response
  GetScriptPath : String
  IsCommandAvailable : String → Bool

/-- The process-wide collaborators read by the executor: the global `util.Debug` and the
channel that `channel.NewLocalChannel()` creates. -/
structure Env where
  Debug : Bool
  NewLocalChannel : Channel

/-- The verb `%t` of `fmt.Sprintf` on a boolean. -/
def fmtBool (b : Bool) : String :=
  if b then "true" else "false"

/-! ### `path.Join` and `path.Clean` of the Go standard library -/

/-- The backtracking step of `path.Clean` on a `..` element, on the reversed output buffer:
`out.w--` followed by `for out.w > dotdot && out.index(out.w) != '/' { out.w-- }`. -/
def cleanBacktrack (dotdot : Nat) : List Char → List Char
  | [] => []
  | c :: rest =>
    if rest.length > dotdot && c != '/' then cleanBacktrack dotdot rest else rest

/-- The main loop `for r < n` of `path.Clean`. `p` is the unread input `path[r:]`, `rout`
the output buffer reversed, `dotdot` the index where `..` must stop; every iteration
consumes at least one character, so a fuel of `n` iterations is enough. -/
def cleanLoop (rooted : Bool) : Nat → List Char → List Char → Nat → List Char
  | 0, _, rout, _ => rout
  | _ + 1, [], rout, _ => rout
  | fuel + 1, c :: rest, rout, dotdot =>
    if c = '/' then
      cleanLoop rooted fuel rest rout dotdot
    else if c = '.' ∧ (rest = [] ∨ rest.head? = some '/') then
      cleanLoop rooted fuel rest rout dotdot
    else if c = '.' ∧ rest.head? = some '.' ∧
        (rest.tail = [] ∨ rest.tail.head? = some '/') then
      if rout.length > dotdot then
        cleanLoop rooted fuel rest.tail (cleanBacktrack dotdot rout) dotdot
      else if !rooted then
        let rout1 := if rout.length > 0 then '/' :: rout else rout
        let rout2 := '.' :: '.' :: rout1
        cleanLoop rooted fuel rest.tail rout2 rout2.length
      else
        cleanLoop rooted fuel rest.tail rout dotdot
    else
      let rout1 :=
        if (rooted && rout.length != 1) || (!rooted && rout.length != 0) then '/' :: rout
        else rout
      let elem := (c :: rest).takeWhile (fun x => x != '/')
      cleanLoop rooted fuel ((c :: rest).dropWhile (fun x => x != '/'))
        (elem.reverse ++ rout1) dotdot

/-- The function `path.Clean`: the shortest path name equivalent to `path`. -/
def pathClean (path : String) : String :=
  match path.data with
  | [] => "."
  | c :: rest =>
    let rooted := c == '/'
    let rout := cleanLoop rooted (c :: rest).length (c :: rest)
      (if rooted then ['/'] else []) (if rooted then 1 else 0)
    if rout.length = 0 then "." else String.mk rout.reverse

/-- The function `path.Join`: the elements from the first non-empty one on, separated by
slashes and cleaned; the empty string when every element is empty. -/
def pathJoin (elem : List String) : String :=
  match elem.dropWhile (fun e => e == "") with
  | [] => ""
  | es => pathClean (String.intercalate "/" es)

/-! ## The action spec (`DropActionSpec`) -/

/-- One declared parameter `spec.ExpFlag` of an action. -/
structure ExpFlag where
  Name : String
  Desc : String
  NoArgs : Bool := false
  Required : Bool := false
  deriving DecidableEq, Repr

/-- One command of an example, `spec.ExampleCommand`. -/
structure ExampleCommand where
  Annotation : String
  Command : String
  deriving DecidableEq, Repr

/-- The example of an action, `spec.Example`; the command slice may be `nil`. -/
structure Example where
  Introduction : String
  ExampleCommands : Option (List ExampleCommand)
  deriving DecidableEq, Repr

/-- The executor of the drop action; `channel` is `nil` until `SetChannel` is called. -/
structure NetworkDropExecutor where
  channel : Option Channel

/-- The embedded `spec.BaseExpActionCommandSpec` of the drop action. -/
structure BaseExpActionCommandSpec where
  ActionMatchers : Option (List ExpFlag)
  ActionFlags : Option (List ExpFlag)
  ActionExecutor : NetworkDropExecutor
  ActionLongDesc : String := ""
  ActionExample : Example := { Introduction := "", ExampleCommands := none }

/-- The action spec `DropActionSpec`, a `BaseExpActionCommandSpec` with its own methods. -/
structure DropActionSpec extends BaseExpActionCommandSpec

/-- The constructor `NewDropActionSpec`. -/
def NewDropActionSpec : DropActionSpec :=
  { ActionMatchers := some [
      { Name := "local-port", Desc := "Port for local service" },
      { Name := "remote-port", Desc := "Port for remote service" }],
    ActionFlags := some [],
    ActionExecutor := { channel := none } }

/-- The method `DropActionSpec.Name`. -/
def DropActionSpec.Name (_d : DropActionSpec) : String := "drop"

/-- The method `DropActionSpec.Aliases`. -/
def DropActionSpec.Aliases (_d : DropActionSpec) : Option (List String) := some []

/-- The method `DropActionSpec.ShortDesc`. -/
def DropActionSpec.ShortDesc (_d : DropActionSpec) : String := "Drop experiment"

/-- The method `DropActionSpec.LongDesc`. -/
def DropActionSpec.LongDesc (d : DropActionSpec) : String :=
  if d.ActionLongDesc != "" then d.ActionLongDesc
  else "Drop network data"

/-- The example that `DropActionSpec.Example` falls back to. -/
def defaultExample : Example :=
  { Introduction := "In the experimental scenario of network shielding, 100% packet loss on the same network will be followed by 100% replacement of packet loss. The difference between the two is that the underlying implementation mechanism is different, and the network mask only supports ports, not the entire network card, which has limitations. It is recommended to replace this command with network packet loss 100%",
    ExampleCommands := some [
      { Annotation := "Experimental scenario of network shielding",
        Command := "blade create network drop" }] }

/-- The method `DropActionSpec.Example`: the caller-supplied example when its introduction
is non-empty (tested twice, as in the source) or its command slice is not `nil`. -/
def DropActionSpec.Example (d : DropActionSpec) : Example :=
  if d.ActionExample.Introduction != "" || d.ActionExample.Introduction != "" ||
      d.ActionExample.ExampleCommands != none then
    d.ActionExample
  else
    defaultExample

/-! ## The executor (`NetworkDropExecutor`) -/

/-- One invocation `Channel.Run(ctx, script, args)`. -/
structure RunCall where
  ctx : Context
  script : String
  args : String
  deriving DecidableEq, Repr

/-- What one call of `Exec` does: the response it returns, the invocations of
`Channel.Run` it made, in order, and the executor it leaves behind. -/
structure Outcome where
  response : Response
  calls : List RunCall
  executor : NetworkDropExecutor

/-- The method `NetworkDropExecutor.Name`. -/
def NetworkDropExecutor.Name (_ne : NetworkDropExecutor) : String := "drop"

/-- The package variable `dropNetworkBin`. -/
def dropNetworkBin : String := "chaos_dropnetwork"

/-- The method `NetworkDropExecutor.SetChannel`. -/
def NetworkDropExecutor.SetChannel (ne : NetworkDropExecutor) (channel : Channel) :
    NetworkDropExecutor :=
  { ne with channel := some channel }

/-- The loop of `checkNetworkDropExpEnv` over the required commands: the error message for
the first command the local channel reports unavailable, `none` (a nil error) otherwise. -/
def checkCommands (env : Env) : List String → Option String
  | [] => none
  | command :: commands =>
    if !env.NewLocalChannel.IsCommandAvailable command then
      some (command ++ " command not found")
    else checkCommands env commands

/-- The required tool list `commands` of `checkNetworkDropExpEnv`. -/
def requiredCommands : List String := ["iptables"]

/-- The function `checkNetworkDropExpEnv`. -/
def checkNetworkDropExpEnv (env : Env) : Option String :=
  checkCommands env requiredCommands

/-- The argument string built by `start`. -/
def startArgs (debug : Bool) (localPort remotePort : String) : String :=
  let args := "--start --debug=" ++ fmtBool debug
  let args := if localPort != "" then args ++ " --local-port " ++ localPort else args
  let args := if remotePort != "" then args ++ " --remote-port " ++ remotePort else args
  args

/-- The argument string built by `stop`. -/
def stopArgs (debug : Bool) (localPort remotePort : String) : String :=
  let args := "--stop --debug=" ++ fmtBool debug
  let args := if localPort != "" then args ++ " --local-port " ++ localPort else args
  let args := if remotePort != "" then args ++ " --remote-port " ++ remotePort else args
  args

/-- The delegation `ne.channel.Run(ctx, path.Join(ne.channel.GetScriptPath(), dropNetworkBin),
args)` shared by `start` and `stop`; dereferencing a nil channel panics. -/
def NetworkDropExecutor.run (ne : NetworkDropExecutor) (ctx : Context) (args : String) :
    Option Outcome :=
  match ne.channel with
  | none => none
  | some channel =>
    let script := pathJoin [channel.GetScriptPath, dropNetworkBin]
    some { response := channel.Run ctx script args,
           calls := [{ ctx := ctx, script := script, args := args }],
           executor := ne }

/-- The method `NetworkDropExecutor.start`. -/
def NetworkDropExecutor.start (env : Env) (ne : NetworkDropExecutor)
    (localPort remotePort : String) (ctx : Context) : Option Outcome :=
  ne.run ctx (startArgs env.Debug localPort remotePort)

/-- The method `NetworkDropExecutor.stop`. -/
def NetworkDropExecutor.stop (env : Env) (ne : NetworkDropExecutor)
    (localPort remotePort : String) (ctx : Context) : Option Outcome :=
  ne.run ctx (stopArgs env.Debug localPort remotePort)

/-- The method `NetworkDropExecutor.Exec`. -/
def NetworkDropExecutor.Exec (env : Env) (ne : NetworkDropExecutor) (_suid : String)
    (ctx : Context) (model : ExpModel) : Option Outcome :=
  match checkNetworkDropExpEnv env with
  | some err =>
    some { response := ReturnFail ErrorKind.CommandNotFound err, calls := [], executor := ne }
  | none =>
    if ne.channel.isNone then
      some { response := ReturnFail ErrorKind.ServerError "channel is nil", calls := [],
             executor := ne }
    else
      let localPort := model.ActionFlags.get "local-port"
      let remotePort := model.ActionFlags.get "remote-port"
      if (IsDestroy ctx).2 then
        ne.stop env localPort remotePort ctx
      else
        ne.start env localPort remotePort ctx

/-- The argument string of the `Channel.Run` invocation that `Exec` makes once both checks
have passed: that of `stop` under a destroy marker, that of `start` otherwise. -/
def renderedArgs (env : Env) (ctx : Context) (model : ExpModel) : String :=
  if ctx.destroy.isSome then
    stopArgs env.Debug (model.ActionFlags.get "local-port") (model.ActionFlags.get "remote-port")
  else
    startArgs env.Debug (model.ActionFlags.get "local-port") (model.ActionFlags.get "remote-port")

/-- The number of positions of `s` at which `pat` starts. -/
def countOccurrences (pat : List Char) : List Char → Nat
  | [] => 0
  | c :: cs => (if pat.isPrefixOf (c :: cs) then 1 else 0) + countOccurrences pat cs

/-- The number of occurrences of the non-empty string `pat` in the string `s`. -/
def occurrences (pat s : String) : Nat :=
  countOccurrences pat.data s.data

/-- The argument string of either mode: that of `stop` when `isStop` holds, that of `start`
otherwise. -/
def modeArgs (isStop debug : Bool) (localPort remotePort : String) : String :=
  if isStop then stopArgs debug localPort remotePort
  else startArgs debug localPort remotePort

/-- The characters a port pair contributes: nothing for an empty value. -/
def flagChars (name : String) (v : String) : List Char :=
  if v = "" then [] else name.data ++ v.data

/-- The characters that follow the mode and debug flags: the local pair, then the remote
pair. -/
def tailChars (lp rp : String) : List Char :=
  flagChars " --local-port " lp ++ flagChars " --remote-port " rp

/-- A path element that `path.Clean` keeps as it is: non-empty, without a slash, and neither
`.` nor `..`. -/
def plainElem (seg : List Char) : Prop :=
  seg ≠ [] ∧ '/' ∉ seg ∧ seg ≠ ['.'] ∧ seg ≠ ['.', '.']

/-- The characters of the absolute path with the given elements: a slash before each. -/
def absoluteChars (segs : List (List Char)) : List Char :=
  (segs.map (fun seg => '/' :: seg)).flatten

/-- The names an action spec declares, matchers first, then flags. -/
def declaredNames (d : DropActionSpec) : List String :=
  ((d.ActionMatchers.getD []) ++ (d.ActionFlags.getD [])).map ExpFlag.Name

/-! ## Sample channels, models and contexts -/

/-- A channel that accepts every command and answers every run with success. -/
def okChannel : Channel :=
  { Run := fun _ _ _ => { success := true, errorCode := none, message := "", result := none },
    GetScriptPath := "/opt/chaosblade/bin",
    IsCommandAvailable := fun _ => true }

/-- A channel on which no command is available. -/
def bareChannel : Channel :=
  { okChannel with IsCommandAvailable := fun _ => false }

/-- A channel that accepts every command and answers every run with an execution failure. -/
def failChannel : Channel :=
  { okChannel with Run := fun _ _ _ => ReturnFail (ErrorKind.Other 1) "exit status 1" }

/-- A channel whose every run fails with the very response `Exec` uses for a missing
channel. -/
def nilMessageChannel : Channel :=
  { okChannel with Run := fun _ _ _ => ReturnFail ErrorKind.ServerError "channel is nil" }

/-- The flags of `modelBoth` next to a key the spec does not declare. -/
def modelExtraKey : ExpModel :=
  { Target := "network", Scope := "host", ActionName := "drop",
    ActionFlags := [("interface", "eth0"), ("local-port", "8080"), ("remote-port", "443")] }

/-- A model whose only flag is the local port 8080. -/
def model8080 : ExpModel :=
  { Target := "network", Scope := "host", ActionName := "drop",
    ActionFlags := [("local-port", "8080")] }

/-- A model with both ports supplied, the remote port inserted first. -/
def modelBoth : ExpModel :=
  { Target := "network", Scope := "host", ActionName := "drop",
    ActionFlags := [("remote-port", "443"), ("local-port", "8080")] }

/-- The flags of `modelBoth` with the local port inserted first. -/
def modelBothSwapped : ExpModel :=
  { modelBoth with ActionFlags := [("local-port", "8080"), ("remote-port", "443")] }

/-- A spec whose caller-supplied example has an empty introduction and an empty, non-nil
command slice. -/
def emptySliceSpec : DropActionSpec :=
  { NewDropActionSpec with
    ActionExample := { Introduction := "", ExampleCommands := some [] } }

/-- A spec whose caller-supplied example is, field for field, the family default. -/
def defaultSuppliedSpec : DropActionSpec :=
  { NewDropActionSpec with ActionExample := defaultExample }

/-- A context of a fresh apply. -/
def applyCtx : Context := { deadline := none, destroy := none }

/-- A context carrying the destroy marker of experiment `e1`. -/
def destroyCtx : Context := { deadline := none, destroy := some "e1" }

/-- An environment with debugging off and a local channel that finds every command. -/
def okEnv : Env := { Debug := false, NewLocalChannel := okChannel }

/-- An environment whose local channel finds no command. -/
def bareEnv : Env := { Debug := false, NewLocalChannel := bareChannel }

/-! ## Shared lemmas -/

theorem checkNetworkDropExpEnv_eq (env : Env) :
    checkNetworkDropExpEnv env =
      if env.NewLocalChannel.IsCommandAvailable "iptables" then none
      else some "iptables command not found" := by
  cases h : env.NewLocalChannel.IsCommandAvailable "iptables" <;>
    simp [checkNetworkDropExpEnv, requiredCommands, checkCommands, h]

theorem Exec_delegates (env : Env) (ne : NetworkDropExecutor) (c : Channel) (suid : String)
    (ctx : Context) (model : ExpModel)
    (htool : env.NewLocalChannel.IsCommandAvailable "iptables" = true)
    (hchan : ne.channel = some c) :
    ne.Exec env suid ctx model =
      some { response := c.Run ctx (pathJoin [c.GetScriptPath, dropNetworkBin])
               (renderedArgs env ctx model),
             calls := [{ ctx := ctx, script := pathJoin [c.GetScriptPath, dropNetworkBin],
                         args := renderedArgs env ctx model }],
             executor := ne } := by
  unfold NetworkDropExecutor.Exec
  rw [checkNetworkDropExpEnv_eq, htool]
  cases hd : ctx.destroy <;>
    simp [hchan, IsDestroy, hd, renderedArgs, NetworkDropExecutor.start,
      NetworkDropExecutor.stop, NetworkDropExecutor.run]

theorem checkCommands_first_missing (env : Env) (cmds : List String)
    (h : ∃ t ∈ cmds, env.NewLocalChannel.IsCommandAvailable t = false) :
    ∃ pre tool post, cmds = pre ++ tool :: post ∧
      (∀ t ∈ pre, env.NewLocalChannel.IsCommandAvailable t = true) ∧
      env.NewLocalChannel.IsCommandAvailable tool = false ∧
      checkCommands env cmds = some (tool ++ " command not found") := by
  induction cmds with
  | nil => simp at h
  | cons a rest ih =>
    cases ha : env.NewLocalChannel.IsCommandAvailable a with
    | false =>
      exact ⟨[], a, rest, rfl, by simp, ha, by simp [checkCommands, ha]⟩
    | true =>
      obtain ⟨t, ht, htf⟩ := h
      have hmem : t ∈ rest := by
        rcases List.mem_cons.mp ht with h1 | h1
        · rw [h1, ha] at htf; cases htf
        · exact h1
      obtain ⟨pre, tool, post, h1, h2, h3, h4⟩ := ih ⟨t, hmem, htf⟩
      refine ⟨a :: pre, tool, post, by rw [h1]; rfl, ?_, h3, by simp [checkCommands, ha, h4]⟩
      intro x hx
      rcases List.mem_cons.mp hx with h5 | h5
      · rw [h5]; exact ha
      · exact h2 x h5

theorem find_filter_other (m : GoMap) (k k' : String) (h : k' ≠ k) :
    (m.filter (fun kv => !(kv.1 == k))).find? (fun kv => kv.1 == k') =
      m.find? (fun kv => kv.1 == k') := by
  induction m with
  | nil => rfl
  | cons a rest ih =>
    cases e1 : (a.1 == k) with
    | true =>
      have e2 : (a.1 == k') = false := by
        have : a.1 = k := by simpa using e1
        simp [this, Ne.symm h]
      rw [List.filter_cons, List.find?_cons]
      simp only [e1, e2, Bool.not_true, Bool.false_eq_true, if_false]
      exact ih
    | false =>
      rw [List.filter_cons]
      simp only [e1, Bool.not_false, if_true, List.find?_cons]
      cases e2 : (a.1 == k') with
      | true => rfl
      | false => exact ih

theorem GoMap.get_set (m : GoMap) (k v k' : String) :
    (m.set k v).get k' = if k' = k then v else m.get k' := by
  by_cases h : k' = k
  · subst h
    simp [GoMap.set, GoMap.get]
  · have h' : (k == k') = false := by simp [Ne.symm h]
    rw [if_neg h]
    unfold GoMap.set GoMap.get
    rw [List.find?_cons]
    simp only [h']
    rw [find_filter_other m k k' h]

theorem isPrefixOf_before_space (pat : List Char) (hp : ' ' ∉ pat) :
    ∀ X B : List Char, pat.isPrefixOf (X ++ ' ' :: B) = pat.isPrefixOf X := by
  induction pat with
  | nil => intro X B; simp [List.isPrefixOf]
  | cons p ps ih =>
    intro X B
    have hp0 : p ≠ ' ' := fun e => hp (by rw [e]; simp)
    have hps : ' ' ∉ ps := fun hm => hp (List.mem_cons_of_mem _ hm)
    cases X with
    | nil => simp [List.isPrefixOf, hp0]
    | cons x X' =>
      show List.isPrefixOf (p :: ps) (x :: (X' ++ ' ' :: B)) = List.isPrefixOf (p :: ps) (x :: X')
      simp only [List.isPrefixOf, ih hps X' B]

theorem count_split_at_space (pat : List Char) (hp : ' ' ∉ pat) (hne : pat ≠ [])
    (A B : List Char) :
    countOccurrences pat (A ++ ' ' :: B) = countOccurrences pat A + countOccurrences pat B := by
  induction A with
  | nil =>
    have h := isPrefixOf_before_space pat hp [] B
    have h0 : pat.isPrefixOf [] = false := by
      cases pat with
      | nil => exact absurd rfl hne
      | cons p ps => rfl
    simp only [List.nil_append] at h
    simp [countOccurrences, h, h0]
  | cons a A' ih =>
    have h : pat.isPrefixOf (a :: (A' ++ ' ' :: B)) = pat.isPrefixOf (a :: A') :=
      isPrefixOf_before_space pat hp (a :: A') B
    show (if pat.isPrefixOf (a :: (A' ++ ' ' :: B)) then 1 else 0) +
        countOccurrences pat (A' ++ ' ' :: B) =
      ((if pat.isPrefixOf (a :: A') then 1 else 0) + countOccurrences pat A') +
        countOccurrences pat B
    rw [h, ih]
    omega

theorem count_local_split (A B : List Char) :
    countOccurrences ['-', '-', 'l', 'o', 'c', 'a', 'l', '-', 'p', 'o', 'r', 't']
        (A ++ ' ' :: B) =
      countOccurrences ['-', '-', 'l', 'o', 'c', 'a', 'l', '-', 'p', 'o', 'r', 't'] A +
        countOccurrences ['-', '-', 'l', 'o', 'c', 'a', 'l', '-', 'p', 'o', 'r', 't'] B :=
  count_split_at_space _ (by decide) (by simp) A B

theorem count_remote_split (A B : List Char) :
    countOccurrences ['-', '-', 'r', 'e', 'm', 'o', 't', 'e', '-', 'p', 'o', 'r', 't']
        (A ++ ' ' :: B) =
      countOccurrences ['-', '-', 'r', 'e', 'm', 'o', 't', 'e', '-', 'p', 'o', 'r', 't'] A +
        countOccurrences ['-', '-', 'r', 'e', 'm', 'o', 't', 'e', '-', 'p', 'o', 'r', 't'] B :=
  count_split_at_space _ (by decide) (by simp) A B

theorem string_append_cancel_left {a b c : String} (h : a ++ b = a ++ c) : b = c := by
  have h1 := congrArg String.data h
  simp only [String.data_append] at h1
  exact String.ext (List.append_cancel_left h1)

theorem startArgs_eq (b : Bool) (lp rp : String) :
    startArgs b lp rp =
      "--start --debug=" ++ (if b then "true" else "false") ++
        (if lp = "" then "" else " --local-port " ++ lp) ++
        (if rp = "" then "" else " --remote-port " ++ rp) := by
  by_cases hl : lp = "" <;> by_cases hr : rp = "" <;>
    simp [startArgs, fmtBool, hl, hr, String.append_assoc]

theorem stopArgs_eq (b : Bool) (lp rp : String) :
    stopArgs b lp rp =
      "--stop --debug=" ++ (if b then "true" else "false") ++
        (if lp = "" then "" else " --local-port " ++ lp) ++
        (if rp = "" then "" else " --remote-port " ++ rp) := by
  by_cases hl : lp = "" <;> by_cases hr : rp = "" <;>
    simp [stopArgs, fmtBool, hl, hr, String.append_assoc]

theorem occurrences_local_rendered (b : Bool) (lp rp args : String)
    (hargs : args = startArgs b lp rp ∨ args = stopArgs b lp rp) :
    occurrences "--local-port" args =
      (if lp = "" then 0 else 1) + occurrences "--local-port" lp +
        occurrences "--local-port" rp := by
  unfold occurrences
  rcases hargs with h | h <;> rw [h]
  · rw [startArgs_eq]
    by_cases h1 : lp = "" <;> by_cases h2 : rp = "" <;> cases b <;>
      simp only [h1, h2, if_true, if_false, Bool.false_eq_true] <;>
      simp [String.data_append, countOccurrences, count_local_split] <;> omega
  · rw [stopArgs_eq]
    by_cases h1 : lp = "" <;> by_cases h2 : rp = "" <;> cases b <;>
      simp only [h1, h2, if_true, if_false, Bool.false_eq_true] <;>
      simp [String.data_append, countOccurrences, count_local_split] <;> omega

theorem occurrences_remote_rendered (b : Bool) (lp rp args : String)
    (hargs : args = startArgs b lp rp ∨ args = stopArgs b lp rp) :
    occurrences "--remote-port" args =
      (if rp = "" then 0 else 1) + occurrences "--remote-port" lp +
        occurrences "--remote-port" rp := by
  unfold occurrences
  rcases hargs with h | h <;> rw [h]
  · rw [startArgs_eq]
    by_cases h1 : lp = "" <;> by_cases h2 : rp = "" <;> cases b <;>
      simp only [h1, h2, if_true, if_false, Bool.false_eq_true] <;>
      simp [String.data_append, countOccurrences, count_remote_split] <;> omega
  · rw [stopArgs_eq]
    by_cases h1 : lp = "" <;> by_cases h2 : rp = "" <;> cases b <;>
      simp only [h1, h2, if_true, if_false, Bool.false_eq_true] <;>
      simp [String.data_append, countOccurrences, count_remote_split] <;> omega

theorem modeArgs_data (s b : Bool) (lp rp : String) :
    (modeArgs s b lp rp).data =
      (if s then "--stop --debug=" else "--start --debug=").data ++
        (if b then "true" else "false").data ++ tailChars lp rp := by
  unfold modeArgs tailChars flagChars
  cases s <;> simp only [Bool.false_eq_true, if_false, if_true] <;>
    [rw [startArgs_eq]; rw [stopArgs_eq]] <;>
    by_cases hl : lp = "" <;> by_cases hr : rp = "" <;>
    simp [hl, hr, String.data_append]

theorem split_at_space (a b x y : List Char) (ha : ' ' ∉ a) (hb : ' ' ∉ b)
    (h : a ++ ' ' :: x = b ++ ' ' :: y) : a = b ∧ x = y := by
  induction a generalizing b with
  | nil =>
    cases b with
    | nil => simpa using h
    | cons d b' =>
      exfalso
      simp only [List.nil_append, List.cons_append, List.cons.injEq] at h
      exact hb (by rw [← h.1]; simp)
  | cons c a' ih =>
    cases b with
    | nil =>
      exfalso
      simp only [List.nil_append, List.cons_append, List.cons.injEq] at h
      exact ha (by rw [h.1]; simp)
    | cons d b' =>
      simp only [List.cons_append, List.cons.injEq] at h
      have ha' : ' ' ∉ a' := fun hm => ha (List.mem_cons_of_mem _ hm)
      have hb' : ' ' ∉ b' := fun hm => hb (List.mem_cons_of_mem _ hm)
      obtain ⟨h1, h2⟩ := ih b' ha' hb' h.2
      exact ⟨by rw [h.1, h1], h2⟩

theorem data_ne_nil {v : String} (h : v ≠ "") : v.data ≠ [] := by
  intro hd
  exact h (String.ext hd)

theorem tailChars_inj (lp1 rp1 lp2 rp2 : String)
    (h1 : ' ' ∉ lp1.data) (h2 : ' ' ∉ lp2.data)
    (h : tailChars lp1 rp1 = tailChars lp2 rp2) : lp1 = lp2 ∧ rp1 = rp2 := by
  unfold tailChars flagChars at h
  by_cases a1 : lp1 = "" <;> by_cases b1 : rp1 = "" <;>
    by_cases a2 : lp2 = "" <;> by_cases b2 : rp2 = "" <;>
    simp only [a1, b1, a2, b2, if_true, if_false, List.append_nil, List.nil_append] at h
  all_goals first
    | exact ⟨a1.trans a2.symm, b1.trans b2.symm⟩
    | (exfalso; simp at h; done)
    | (have h' : lp1.data = lp2.data := by simpa using h
       exact ⟨String.ext h', b1.trans b2.symm⟩)
    | (have h' : rp1.data = rp2.data := by simpa using h
       exact ⟨a1.trans a2.symm, String.ext h'⟩)
    | (exfalso
       have h' : lp1.data = lp2.data ++ (" --remote-port ".data ++ rp2.data) := by
         simpa using h
       exact h1 (by rw [h']; simp))
    | (exfalso
       have h' : lp2.data = lp1.data ++ (" --remote-port ".data ++ rp1.data) := by
         simpa using h.symm
       exact h2 (by rw [h']; simp))
    | (have h' : lp1.data ++ ' ' :: ("--remote-port ".data ++ rp1.data) =
           lp2.data ++ ' ' :: ("--remote-port ".data ++ rp2.data) := by simpa using h
       obtain ⟨e1, e2⟩ := split_at_space _ _ _ _ h1 h2 h'
       exact ⟨String.ext e1, String.ext (List.append_cancel_left e2)⟩)

theorem modeArgs_inj_of_local (s1 s2 b1 b2 : Bool) (lp1 rp1 lp2 rp2 : String)
    (h1 : ' ' ∉ lp1.data) (h2 : ' ' ∉ lp2.data)
    (h : modeArgs s1 b1 lp1 rp1 = modeArgs s2 b2 lp2 rp2) :
    s1 = s2 ∧ b1 = b2 ∧ lp1 = lp2 ∧ rp1 = rp2 := by
  have hd := congrArg String.data h
  rw [modeArgs_data, modeArgs_data] at hd
  have key : s1 = s2 ∧ b1 = b2 ∧ tailChars lp1 rp1 = tailChars lp2 rp2 := by
    cases s1 <;> cases s2 <;> cases b1 <;> cases b2 <;>
      simp at hd <;> simp [hd]
  obtain ⟨e1, e2, e3⟩ := key
  obtain ⟨e4, e5⟩ := tailChars_inj lp1 rp1 lp2 rp2 h1 h2 e3
  exact ⟨e1, e2, e4, e5⟩

theorem absoluteChars_head (segs : List (List Char)) :
    ∀ c, (absoluteChars segs).head? = some c → c = '/' := by
  intro c h
  cases segs with
  | nil => simp [absoluteChars] at h
  | cons seg rest =>
    simp [absoluteChars] at h
    exact h.symm

theorem takeWhile_elem (seg T : List Char) (hs : '/' ∉ seg)
    (hT : ∀ c, T.head? = some c → c = '/') :
    (seg ++ T).takeWhile (fun x => x != '/') = seg ∧
    (seg ++ T).dropWhile (fun x => x != '/') = T := by
  induction seg with
  | nil =>
    cases T with
    | nil => simp
    | cons d T' =>
      have : d = '/' := hT d rfl
      subst this
      simp
  | cons a seg' ih =>
    have ha : a ≠ '/' := fun e => hs (by rw [e]; simp)
    have hs' : '/' ∉ seg' := fun hm => hs (List.mem_cons_of_mem _ hm)
    obtain ⟨h1, h2⟩ := ih hs'
    have hb : (a != '/') = true := by simpa using ha
    rw [List.cons_append, List.takeWhile_cons, List.dropWhile_cons]
    simp only [hb, if_true, h1, h2, and_self]

theorem cleanLoop_elem (rooted : Bool) (fuel : Nat) (seg T rout : List Char) (dotdot : Nat)
    (hp : plainElem seg) (hT : ∀ c, T.head? = some c → c = '/') :
    cleanLoop rooted (fuel + 1) (seg ++ T) rout dotdot =
      cleanLoop rooted fuel T
        (seg.reverse ++
          (if (rooted && rout.length != 1) || (!rooted && rout.length != 0) then '/' :: rout
           else rout)) dotdot := by
  obtain ⟨hne, hslash, hdot, hdotdot⟩ := hp
  cases seg with
  | nil => exact absurd rfl hne
  | cons a seg' =>
    have ha : a ≠ '/' := fun e => hslash (by rw [e]; simp)
    have hs' : '/' ∉ seg' := fun hm => hslash (List.mem_cons_of_mem _ hm)
    obtain ⟨h1, h2⟩ := takeWhile_elem (a :: seg') T (by simpa using ⟨Ne.symm ha, hs'⟩) hT
    have c2 : ¬ (a = '.' ∧ (seg' ++ T = [] ∨ (seg' ++ T).head? = some '/')) := by
      rintro ⟨e, h | h⟩
      · have : seg' = [] := (List.append_eq_nil.mp h).1
        exact hdot (by rw [e, this])
      · cases seg' with
        | nil => exact hdot (by rw [e])
        | cons b seg'' =>
          simp at h
          exact hs' (by rw [h]; simp)
    have c3 : ¬ (a = '.' ∧ (seg' ++ T).head? = some '.' ∧
        ((seg' ++ T).tail = [] ∨ (seg' ++ T).tail.head? = some '/')) := by
      rintro ⟨e, h, h'⟩
      cases seg' with
      | nil =>
        simp at h
        have := hT _ h
        exact absurd this (by decide)
      | cons b seg'' =>
        simp at h
        subst h
        simp at h'
        rcases h' with h' | h'
        · exact hdotdot (by rw [e, h'.1])
        · cases seg'' with
          | nil => exact hdotdot (by rw [e])
          | cons d seg3 =>
            simp at h'
            exact hs' (by rw [h']; simp)
    show cleanLoop rooted (fuel + 1) (a :: (seg' ++ T)) rout dotdot = _
    rw [cleanLoop]
    rw [if_neg ha, if_neg c2, if_neg c3]
    have h1' : (a :: (seg' ++ T)).takeWhile (fun x => x != '/') = a :: seg' := h1
    have h2' : (a :: (seg' ++ T)).dropWhile (fun x => x != '/') = T := h2
    simp only [h1', h2']

theorem absoluteChars_cons (seg : List Char) (segs : List (List Char)) :
    absoluteChars (seg :: segs) = '/' :: (seg ++ absoluteChars segs) := by
  simp [absoluteChars]

theorem absoluteChars_append (xs ys : List (List Char)) :
    absoluteChars (xs ++ ys) = absoluteChars xs ++ absoluteChars ys := by
  simp [absoluteChars]

theorem absoluteChars_length (segs : List (List Char)) (hall : ∀ seg ∈ segs, plainElem seg) :
    2 * segs.length ≤ (absoluteChars segs).length := by
  induction segs with
  | nil => simp
  | cons seg rest ih =>
    have h1 := ih (fun x hx => hall x (List.mem_cons_of_mem _ hx))
    have h2 : 1 ≤ seg.length := by
      have := (hall seg (List.mem_cons_self _ _)).1
      exact List.length_pos.mpr this
    rw [absoluteChars_cons]
    simp only [List.length_cons, List.length_append]
    omega

theorem cleanLoop_absolute (segs : List (List Char)) (hall : ∀ seg ∈ segs, plainElem seg) :
    ∀ (fuel : Nat) (rout : List Char) (dotdot : Nat), 2 * segs.length ≤ fuel →
      2 ≤ rout.length →
      cleanLoop true fuel (absoluteChars segs) rout dotdot =
        (absoluteChars segs).reverse ++ rout := by
  induction segs with
  | nil =>
    intro fuel rout dotdot _ _
    cases fuel <;> simp [absoluteChars, cleanLoop]
  | cons seg rest ih =>
    intro fuel rout dotdot hf hr
    obtain ⟨f, rfl⟩ : ∃ f, fuel = f + 2 := ⟨fuel - 2, by simp at hf; omega⟩
    have hrest : ∀ x ∈ rest, plainElem x := fun x hx => hall x (List.mem_cons_of_mem _ hx)
    have hseg : plainElem seg := hall seg (List.mem_cons_self _ _)
    rw [absoluteChars_cons, cleanLoop, if_pos rfl,
      cleanLoop_elem true f seg (absoluteChars rest) rout dotdot hseg
        (absoluteChars_head rest)]
    have hcond : ((true && rout.length != 1) || (!true && rout.length != 0)) = true := by
      have : rout.length ≠ 1 := by omega
      simp [this]
    rw [if_pos hcond, ih hrest f _ dotdot (by simp at hf; omega) (by simp; omega)]
    simp

theorem pathClean_absolute (seg : List Char) (segs : List (List Char))
    (hall : ∀ x ∈ seg :: segs, plainElem x) :
    pathClean (String.mk (absoluteChars (seg :: segs))) =
      String.mk (absoluteChars (seg :: segs)) := by
  have hrest : ∀ x ∈ segs, plainElem x := fun x hx => hall x (List.mem_cons_of_mem _ hx)
  have hseg : plainElem seg := hall seg (List.mem_cons_self _ _)
  have hlen : 1 ≤ seg.length := List.length_pos.mpr hseg.1
  have hfuel := absoluteChars_length segs hrest
  have hloop : cleanLoop true (('/' :: (seg ++ absoluteChars segs)).length)
      ('/' :: (seg ++ absoluteChars segs)) ['/'] 1 =
      (absoluteChars segs).reverse ++ (seg.reverse ++ ['/']) := by
    have hl : ('/' :: (seg ++ absoluteChars segs)).length =
        (seg.length + (absoluteChars segs).length - 1) + 2 := by
      simp only [List.length_cons, List.length_append]; omega
    rw [hl, cleanLoop, if_pos rfl,
      cleanLoop_elem true _ seg (absoluteChars segs) ['/'] 1 hseg (absoluteChars_head segs)]
    have hcond : ¬ (((true && ['/'].length != 1) || (!true && ['/'].length != 0)) = true) := by
      decide
    rw [if_neg hcond]
    exact cleanLoop_absolute segs hrest _ _ 1 (by omega) (by simp; omega)
  unfold pathClean
  rw [absoluteChars_cons]
  simp only [beq_self_eq_true, if_true]
  rw [hloop]
  simp

theorem pathJoin_absolute (s name : String) (segs : List (List Char))
    (hs : s.data = absoluteChars segs) (hne : segs ≠ [])
    (hall : ∀ x ∈ segs, plainElem x) (hname : plainElem name.data) :
    pathJoin [s, name] = s ++ "/" ++ name := by
  have hs0 : s ≠ "" := by
    intro e
    rw [e] at hs
    cases segs with
    | nil => exact hne rfl
    | cons a rest =>
      rw [absoluteChars_cons] at hs
      cases hs
  have hjoin : String.intercalate "/" [s, name] = s ++ "/" ++ name := by
    simp [String.intercalate, String.intercalate.go]
  have hdata : s ++ "/" ++ name = String.mk (absoluteChars (segs ++ [name.data])) := by
    apply String.ext
    rw [absoluteChars_append]
    simp [String.data_append, hs, absoluteChars]
  unfold pathJoin
  have hbeq : (s == "") = false := by simpa using hs0
  rw [List.dropWhile_cons]
  simp only [hbeq, Bool.false_eq_true, if_false]
  rw [hjoin, hdata]
  cases segs with
  | nil => exact absurd rfl hne
  | cons a rest =>
    exact pathClean_absolute a (rest ++ [name.data]) (by
      intro x hx
      rcases List.mem_cons.mp hx with h | h
      · rw [h]; exact hall a (List.mem_cons_self _ _)
      · rcases List.mem_append.mp h with h' | h'
        · exact hall x (List.mem_cons_of_mem _ h')
        · rw [List.mem_singleton.mp h']; exact hname)

/-! ## Apply and revert rendering -/

/-- C1: when the tool check passes, a channel is bound and the context carries no destroy
marker, `Exec` calls `Channel.Run` once, with the argument string `--start --debug=<b>`
followed by ` --local-port <lp>` when `lp` is non-empty and then by ` --remote-port <rp>`
when `rp` is non-empty; the flags `local-port = 8080` alone give exactly
`--start --debug=<b> --local-port 8080`, and with both ports supplied the local pair
precedes the remote pair. -/
theorem exec_apply_args (env : Env) (ne : NetworkDropExecutor) (c : Channel) (suid : String)
    (ctx : Context) (model : ExpModel) (lp rp : String)
    (htool : env.NewLocalChannel.IsCommandAvailable "iptables" = true)
    (hchan : ne.channel = some c)
    (hctx : ctx.destroy = none)
    (hlp : model.ActionFlags.get "local-port" = lp)
    (hrp : model.ActionFlags.get "remote-port" = rp) :
    ∃ o args, ne.Exec env suid ctx model = some o ∧
      o.calls = [{ ctx := ctx, script := pathJoin [c.GetScriptPath, dropNetworkBin],
                   args := args }] ∧
      args = "--start --debug=" ++ (if env.Debug then "true" else "false") ++
        (if lp = "" then "" else " --local-port " ++ lp) ++
        (if rp = "" then "" else " --remote-port " ++ rp) ∧
      (model.ActionFlags = [("local-port", "8080")] →
        args = "--start --debug=" ++ (if env.Debug then "true" else "false") ++
          " --local-port 8080") ∧
      (lp ≠ "" → rp ≠ "" →
        args = "--start --debug=" ++ (if env.Debug then "true" else "false") ++
          " --local-port " ++ lp ++ " --remote-port " ++ rp) := by
  have hargs : renderedArgs env ctx model = startArgs env.Debug lp rp := by
    simp [renderedArgs, hctx, hlp, hrp]
  refine ⟨_, _, Exec_delegates env ne c suid ctx model htool hchan, rfl, ?_, ?_, ?_⟩
  · rw [hargs, startArgs_eq]
  · intro hflags
    have h1 : lp = "8080" := by rw [← hlp, hflags]; decide
    have h2 : rp = "" := by rw [← hrp, hflags]; decide
    rw [hargs, startArgs_eq, h1, h2]
    cases env.Debug <;> decide
  · intro h1 h2
    rw [hargs, startArgs_eq]
    simp [h1, h2, String.append_assoc]

theorem exec_apply_args_witness :
    okEnv.NewLocalChannel.IsCommandAvailable "iptables" = true ∧
    applyCtx.destroy = none ∧
    ∃ o, NetworkDropExecutor.Exec okEnv { channel := some okChannel } "e1" applyCtx
        model8080 = some o ∧
      o.calls = [{ ctx := applyCtx, script := "/opt/chaosblade/bin/chaos_dropnetwork",
                   args := "--start --debug=false --local-port 8080" }] := by
  obtain ⟨o, args, h1, h2, _, h4, _⟩ :=
    exec_apply_args okEnv { channel := some okChannel } okChannel "e1" applyCtx
      model8080 "8080" "" rfl rfl rfl (by decide) (by decide)
  refine ⟨rfl, rfl, o, h1, ?_⟩
  rw [h2, h4 rfl]
  decide

/-- C2: with the tool check passing and a channel bound, the argument string passed to
`Channel.Run` begins with `--stop` when the context carries the destroy marker and with
`--start` otherwise, and what follows the mode flag is the same string in the apply call
and in the revert call made with the same flag values; the flags `local-port = 8080`
alone under the destroy marker give exactly `--stop --debug=<b> --local-port 8080`. -/
theorem exec_mode_flag (env : Env) (ne : NetworkDropExecutor) (c : Channel)
    (suid suid' uid : String) (ctxA ctxR : Context) (modelA modelR : ExpModel)
    (htool : env.NewLocalChannel.IsCommandAvailable "iptables" = true)
    (hchan : ne.channel = some c)
    (hA : ctxA.destroy = none)
    (hR : ctxR.destroy = some uid)
    (hlp : modelA.ActionFlags.get "local-port" = modelR.ActionFlags.get "local-port")
    (hrp : modelA.ActionFlags.get "remote-port" = modelR.ActionFlags.get "remote-port") :
    ∃ oA oR rest, ne.Exec env suid ctxA modelA = some oA ∧
      ne.Exec env suid' ctxR modelR = some oR ∧
      oA.calls.map RunCall.args = ["--start" ++ rest] ∧
      oR.calls.map RunCall.args = ["--stop" ++ rest] ∧
      (modelR.ActionFlags = [("local-port", "8080")] →
        oR.calls.map RunCall.args =
          ["--stop --debug=" ++ (if env.Debug then "true" else "false") ++
            " --local-port 8080"]) := by
  have hargsA : renderedArgs env ctxA modelA =
      startArgs env.Debug (modelR.ActionFlags.get "local-port")
        (modelR.ActionFlags.get "remote-port") := by
    simp [renderedArgs, hA, hlp, hrp]
  have hargsR : renderedArgs env ctxR modelR =
      stopArgs env.Debug (modelR.ActionFlags.get "local-port")
        (modelR.ActionFlags.get "remote-port") := by
    simp [renderedArgs, hR]
  refine ⟨_, _, " --debug=" ++ (if env.Debug then "true" else "false") ++
      (if modelR.ActionFlags.get "local-port" = "" then ""
        else " --local-port " ++ modelR.ActionFlags.get "local-port") ++
      (if modelR.ActionFlags.get "remote-port" = "" then ""
        else " --remote-port " ++ modelR.ActionFlags.get "remote-port"),
    Exec_delegates env ne c suid ctxA modelA htool hchan,
    Exec_delegates env ne c suid' ctxR modelR htool hchan, ?_, ?_, ?_⟩
  · simp only [List.map, hargsA, startArgs_eq]
    rw [show "--start --debug=" = "--start" ++ " --debug=" from by decide]
    simp only [String.append_assoc]
  · simp only [List.map, hargsR, stopArgs_eq]
    rw [show "--stop --debug=" = "--stop" ++ " --debug=" from by decide]
    simp only [String.append_assoc]
  · intro hflags
    have h1 : modelR.ActionFlags.get "local-port" = "8080" := by rw [hflags]; decide
    have h2 : modelR.ActionFlags.get "remote-port" = "" := by rw [hflags]; decide
    simp only [List.map, hargsR, stopArgs_eq, h1, h2]
    cases env.Debug <;> decide

theorem exec_mode_flag_witness :
    ∃ oA oR, NetworkDropExecutor.Exec okEnv { channel := some okChannel } "e1" applyCtx
        model8080 = some oA ∧
      NetworkDropExecutor.Exec okEnv { channel := some okChannel } "e1" destroyCtx
        model8080 = some oR ∧
      oA.calls.map RunCall.args = ["--start --debug=false --local-port 8080"] ∧
      oR.calls.map RunCall.args = ["--stop --debug=false --local-port 8080"] := by
  obtain ⟨oA, oR, rest, h1, h2, h3, h4, h5⟩ :=
    exec_mode_flag okEnv { channel := some okChannel } okChannel "e1" "e1" "e1" applyCtx
      destroyCtx model8080 model8080 rfl rfl rfl rfl rfl rfl
  have h6 := h5 rfl
  have hrest : rest = " --debug=false --local-port 8080" := by
    rw [h4] at h6
    have h7 : "--stop" ++ rest = "--stop" ++ " --debug=false --local-port 8080" := by
      simpa using h6
    exact string_append_cancel_left h7
  refine ⟨oA, oR, h1, h2, ?_, ?_⟩
  · rw [h3, hrest]; decide
  · rw [h4, hrest]; decide

/-! ## Optional flags -/

/-- C5 as stated fails for values that carry flag text: an omitted `local-port` still
occurs in the rendered string when the remote value contains it, and a supplied
`local-port` occurs twice when its own value repeats the flag. -/
theorem port_flags_counterexample :
    occurrences "--local-port" (startArgs false "" "80 --local-port 22") = 1 ∧
    startArgs false "" "80 --local-port 22" =
      "--start --debug=false --remote-port 80 --local-port 22" ∧
    occurrences "--local-port" (stopArgs false "1 --local-port 2" "") = 2 ∧
    stopArgs false "1 --local-port 2" "" =
      "--stop --debug=false --local-port 1 --local-port 2" := by
  decide

/-- C5, amended: for port values that contain neither `--local-port` nor `--remote-port`,
in both modes, a flag whose value is empty does not occur in the rendered argument string,
and a flag whose value `v` is non-empty occurs exactly once, as `--<name> <v>` followed by
the end of the string or by a space. The restriction is the one the code forces: whatever
the values, a flag occurs once for its own non-empty value plus once for each occurrence
of its text inside the two values. -/
theorem port_flags_rendered (b : Bool) (lp rp args : String)
    (hll : occurrences "--local-port" lp = 0) (hlr : occurrences "--local-port" rp = 0)
    (hrl : occurrences "--remote-port" lp = 0) (hrr : occurrences "--remote-port" rp = 0)
    (hargs : args = startArgs b lp rp ∨ args = stopArgs b lp rp) :
    occurrences "--local-port" args = (if lp = "" then 0 else 1) ∧
    occurrences "--remote-port" args = (if rp = "" then 0 else 1) ∧
    (lp ≠ "" → ∃ pre post, args = pre ++ "--local-port " ++ lp ++ post ∧
      (post = "" ∨ ∃ t, post = " " ++ t)) ∧
    (rp ≠ "" → ∃ pre, args = pre ++ "--remote-port " ++ rp) ∧
    (∀ lp' rp' args' : String,
      args' = startArgs b lp' rp' ∨ args' = stopArgs b lp' rp' →
      occurrences "--local-port" args' =
          (if lp' = "" then 0 else 1) + occurrences "--local-port" lp' +
            occurrences "--local-port" rp' ∧
        occurrences "--remote-port" args' =
          (if rp' = "" then 0 else 1) + occurrences "--remote-port" lp' +
            occurrences "--remote-port" rp') := by
  refine ⟨?_, ?_, ?_, ?_, fun lp' rp' args' h' =>
    ⟨occurrences_local_rendered b lp' rp' args' h',
     occurrences_remote_rendered b lp' rp' args' h'⟩⟩
  · have h := occurrences_local_rendered b lp rp args hargs
    rw [hll, hlr] at h
    simpa using h
  · have h := occurrences_remote_rendered b lp rp args hargs
    rw [hrl, hrr] at h
    simpa using h
  · intro h1
    refine ⟨(if args = startArgs b lp rp then "--start" else "--stop") ++ " --debug=" ++
        (if b then "true" else "false") ++ " ",
      if rp = "" then "" else " --remote-port " ++ rp, ?_, ?_⟩
    · have hne : startArgs b lp rp ≠ stopArgs b lp rp := by
        rw [startArgs_eq, stopArgs_eq]
        intro he
        have he' := congrArg (fun s : String => s.data.drop 3) he
        simp [String.data_append] at he'
      rcases hargs with h | h
      · rw [if_pos h, h, startArgs_eq]
        simp only [h1, if_false]
        rw [show "--start --debug=" = "--start" ++ " --debug=" from by decide,
          show " --local-port " = " " ++ "--local-port " from by decide]
        simp only [String.append_assoc]
      · rw [if_neg (by rw [h]; exact fun e => hne e.symm), h, stopArgs_eq]
        simp only [h1, if_false]
        rw [show "--stop --debug=" = "--stop" ++ " --debug=" from by decide,
          show " --local-port " = " " ++ "--local-port " from by decide]
        simp only [String.append_assoc]
    · by_cases h2 : rp = ""
      · exact Or.inl (by simp [h2])
      · exact Or.inr ⟨"--remote-port " ++ rp, by
          simp only [h2, if_false]
          rw [show " --remote-port " = " " ++ "--remote-port " from by decide]
          simp only [String.append_assoc]⟩
  · intro h2
    rcases hargs with h | h
    · refine ⟨"--start --debug=" ++ (if b then "true" else "false") ++
        (if lp = "" then "" else " --local-port " ++ lp) ++ " ", ?_⟩
      rw [h, startArgs_eq]
      simp only [h2, if_false]
      rw [show " --remote-port " = " " ++ "--remote-port " from by decide]
      simp only [String.append_assoc]
    · refine ⟨"--stop --debug=" ++ (if b then "true" else "false") ++
        (if lp = "" then "" else " --local-port " ++ lp) ++ " ", ?_⟩
      rw [h, stopArgs_eq]
      simp only [h2, if_false]
      rw [show " --remote-port " = " " ++ "--remote-port " from by decide]
      simp only [String.append_assoc]

theorem port_flags_rendered_witness :
    occurrences "--local-port" "80--90" = 0 ∧ occurrences "--remote-port" "80--90" = 0 ∧
    occurrences "--local-port" "--stop --debug=true --local-port 80--90" = 1 ∧
    occurrences "--remote-port" "--stop --debug=true --local-port 80--90" = 0 := by
  have h := port_flags_rendered true "80--90" "" "--stop --debug=true --local-port 80--90"
    (by decide) (by decide) (by decide) (by decide) (Or.inr (by decide))
  exact ⟨by decide, by decide, h.1, h.2.1⟩

/-! ## Fail-fast checks -/

/-- C3: if at least one tool of the required tool list is reported unavailable, `Exec`
returns a failure response with error code `CommandNotFound` whose message names the first
missing tool of the list (`<tool> command not found`), and `Channel.Run` is never invoked;
this holds for every executor state, context and model, and the check itself names the
first missing tool of any tool list. -/
theorem exec_tool_missing (env : Env) (ne : NetworkDropExecutor) (suid : String)
    (ctx : Context) (model : ExpModel)
    (h : ∃ t ∈ requiredCommands, env.NewLocalChannel.IsCommandAvailable t = false) :
    requiredCommands = ["iptables"] ∧
    (∃ o pre tool post, requiredCommands = pre ++ tool :: post ∧
      (∀ t ∈ pre, env.NewLocalChannel.IsCommandAvailable t = true) ∧
      env.NewLocalChannel.IsCommandAvailable tool = false ∧
      ne.Exec env suid ctx model = some o ∧
      o.response.success = false ∧
      o.response.errorCode = some ErrorKind.CommandNotFound ∧
      o.response.message = tool ++ " command not found" ∧
      o.calls = []) ∧
    (∀ cmds : List String, (∃ t ∈ cmds, env.NewLocalChannel.IsCommandAvailable t = false) →
      ∃ pre tool post, cmds = pre ++ tool :: post ∧
        (∀ t ∈ pre, env.NewLocalChannel.IsCommandAvailable t = true) ∧
        env.NewLocalChannel.IsCommandAvailable tool = false ∧
        checkCommands env cmds = some (tool ++ " command not found")) := by
  refine ⟨rfl, ?_, fun cmds hc => checkCommands_first_missing env cmds hc⟩
  obtain ⟨pre, tool, post, h1, h2, h3, h4⟩ := checkCommands_first_missing env _ h
  have hexec : ne.Exec env suid ctx model =
      some { response := ReturnFail ErrorKind.CommandNotFound (tool ++ " command not found"),
             calls := [], executor := ne } := by
    unfold NetworkDropExecutor.Exec checkNetworkDropExpEnv
    rw [h4]
  exact ⟨_, pre, tool, post, h1, h2, h3, hexec, rfl, rfl, rfl, rfl⟩

theorem exec_tool_missing_witness :
    ∃ o, NetworkDropExecutor.Exec bareEnv { channel := some okChannel } "e1" applyCtx
        model8080 = some o ∧
      o.response.success = false ∧
      o.response.errorCode = some ErrorKind.CommandNotFound ∧
      o.calls = [] := by
  obtain ⟨_, ⟨o, _, _, _, _, _, _, h1, h2, h3, _, h4⟩, _⟩ :=
    exec_tool_missing bareEnv { channel := some okChannel } "e1" applyCtx model8080
      ⟨"iptables", by decide, rfl⟩
  exact ⟨o, h1, h2, h3, h4⟩

/-- C4 as stated fails: with no channel bound and the required tool missing, `Exec`
returns `CommandNotFound`, not `ServerError`. -/
theorem exec_unbound_counterexample :
    (NetworkDropExecutor.mk none).channel = none ∧
    NetworkDropExecutor.Exec bareEnv { channel := none } "e1" applyCtx model8080 =
      some { response := ReturnFail ErrorKind.CommandNotFound "iptables command not found",
             calls := [], executor := { channel := none } } ∧
    ¬ ∃ o, NetworkDropExecutor.Exec bareEnv { channel := none } "e1" applyCtx model8080 =
        some o ∧ o.response.errorCode = some ErrorKind.ServerError := by
  refine ⟨rfl, rfl, ?_⟩
  rintro ⟨o, h1, h2⟩
  have h3 : NetworkDropExecutor.Exec bareEnv { channel := none } "e1" applyCtx model8080 =
      some { response := ReturnFail ErrorKind.CommandNotFound "iptables command not found",
             calls := [], executor := { channel := none } } := rfl
  rw [h3] at h1
  cases h1
  cases h2

/-- C4, amended: for every executor with no bound channel, every context and every model,
`Exec` never invokes `Channel.Run` and returns a failure response; when the tool check
passes, its error code is `ServerError` and its message `channel is nil`. -/
theorem exec_unbound (env : Env) (ne : NetworkDropExecutor) (suid : String) (ctx : Context)
    (model : ExpModel) (hchan : ne.channel = none) :
    ∃ o, ne.Exec env suid ctx model = some o ∧
      o.response.success = false ∧
      o.calls = [] ∧
      (env.NewLocalChannel.IsCommandAvailable "iptables" = true →
        o.response.errorCode = some ErrorKind.ServerError ∧
        o.response.message = "channel is nil") := by
  cases htool : env.NewLocalChannel.IsCommandAvailable "iptables" with
  | false =>
    refine ⟨{ response := ReturnFail ErrorKind.CommandNotFound "iptables command not found",
              calls := [], executor := ne }, ?_, rfl, rfl, ?_⟩
    · unfold NetworkDropExecutor.Exec
      rw [checkNetworkDropExpEnv_eq, htool]
      rfl
    · intro h; cases h
  | true =>
    refine ⟨{ response := ReturnFail ErrorKind.ServerError "channel is nil",
              calls := [], executor := ne }, ?_, rfl, rfl, fun _ => ⟨rfl, rfl⟩⟩
    unfold NetworkDropExecutor.Exec
    rw [checkNetworkDropExpEnv_eq, htool]
    simp [hchan]

theorem exec_unbound_witness :
    ∃ o, NetworkDropExecutor.Exec okEnv { channel := none } "e1" destroyCtx modelBoth =
        some o ∧
      o.response.success = false ∧
      o.calls = [] ∧
      o.response.errorCode = some ErrorKind.ServerError ∧
      o.response.message = "channel is nil" := by
  obtain ⟨o, h1, h2, h3, h4⟩ :=
    exec_unbound okEnv { channel := none } "e1" destroyCtx modelBoth rfl
  exact ⟨o, h1, h2, h3, h4 rfl⟩

/-! ## Delegation -/

/-- C6: when the tool check passes and a channel is bound, for every context, model and
every response `r` that the channel's `Run` returns for the invocation, `Exec` returns
exactly `r`, and `Run` is invoked exactly once in that call of `Exec`. -/
theorem exec_passes_response (env : Env) (ne : NetworkDropExecutor) (c : Channel)
    (suid : String) (ctx : Context) (model : ExpModel) (r : Response)
    (htool : env.NewLocalChannel.IsCommandAvailable "iptables" = true)
    (hchan : ne.channel = some c)
    (hrun : c.Run ctx (pathJoin [c.GetScriptPath, dropNetworkBin])
      (renderedArgs env ctx model) = r) :
    ∃ o, ne.Exec env suid ctx model = some o ∧
      o.response = r ∧
      o.calls.length = 1 ∧
      o.calls = [{ ctx := ctx, script := pathJoin [c.GetScriptPath, dropNetworkBin],
                   args := renderedArgs env ctx model }] :=
  ⟨_, Exec_delegates env ne c suid ctx model htool hchan, hrun, rfl, rfl⟩

theorem exec_passes_response_witness :
    ∃ o, NetworkDropExecutor.Exec okEnv { channel := some failChannel } "e1" applyCtx
        modelBoth = some o ∧
      o.response = { success := false, errorCode := some (ErrorKind.Other 1),
                     message := "exit status 1", result := none } ∧
      o.calls.length = 1 := by
  obtain ⟨o, h1, h2, h3, _⟩ :=
    exec_passes_response okEnv { channel := some failChannel } failChannel "e1" applyCtx
      modelBoth (ReturnFail (ErrorKind.Other 1) "exit status 1") rfl rfl rfl
  exact ⟨o, h1, h2, h3⟩

/-! ## Determinism of the rendering -/

/-- C7: the argument string `Exec` passes to `Channel.Run` is a function of the mode, the
debug value and the values under `local-port` and `remote-port` only: two calls of `Exec`
that agree on these pass the same argument string, whatever else differs, and two flag
maps built by inserting two distinct keys in either order render the same string. -/
theorem rendered_args_deterministic (env1 env2 : Env) (ne1 ne2 : NetworkDropExecutor)
    (c1 c2 : Channel) (suid1 suid2 : String) (ctx1 ctx2 : Context) (m1 m2 : ExpModel)
    (htool1 : env1.NewLocalChannel.IsCommandAvailable "iptables" = true)
    (htool2 : env2.NewLocalChannel.IsCommandAvailable "iptables" = true)
    (hchan1 : ne1.channel = some c1) (hchan2 : ne2.channel = some c2)
    (hmode : ctx1.destroy.isSome = ctx2.destroy.isSome)
    (hdebug : env1.Debug = env2.Debug)
    (hlp : m1.ActionFlags.get "local-port" = m2.ActionFlags.get "local-port")
    (hrp : m1.ActionFlags.get "remote-port" = m2.ActionFlags.get "remote-port") :
    (∃ args, (ne1.Exec env1 suid1 ctx1 m1).map (fun o => o.calls.map RunCall.args) =
        some [args] ∧
      (ne2.Exec env2 suid2 ctx2 m2).map (fun o => o.calls.map RunCall.args) =
        some [args]) ∧
    (∀ (flags : GoMap) (k v k' v' : String), k ≠ k' →
      (ne1.Exec env1 suid1 ctx1 { m1 with ActionFlags := (flags.set k v).set k' v' }).map
          (fun o => o.calls.map RunCall.args) =
        (ne1.Exec env1 suid1 ctx1 { m1 with ActionFlags := (flags.set k' v').set k v }).map
          (fun o => o.calls.map RunCall.args)) := by
  constructor
  · refine ⟨renderedArgs env1 ctx1 m1, ?_, ?_⟩
    · rw [Exec_delegates env1 ne1 c1 suid1 ctx1 m1 htool1 hchan1]; rfl
    · rw [Exec_delegates env2 ne2 c2 suid2 ctx2 m2 htool2 hchan2]
      simp [renderedArgs, hmode, hdebug, hlp, hrp]
  · intro flags k v k' v' hk
    have hget : ∀ x, ((flags.set k v).set k' v').get x = ((flags.set k' v').set k v).get x := by
      intro x
      simp only [GoMap.get_set]
      have hk' : ¬ k' = k := fun e => hk e.symm
      by_cases h1 : x = k'
      · subst h1
        simp [hk']
      · by_cases h2 : x = k
        · subst h2
          simp [hk]
        · simp [h1, h2]
    rw [Exec_delegates env1 ne1 c1 suid1 ctx1 _ htool1 hchan1,
      Exec_delegates env1 ne1 c1 suid1 ctx1 _ htool1 hchan1]
    simp [renderedArgs, hget]

theorem rendered_args_deterministic_witness :
    (NetworkDropExecutor.Exec okEnv { channel := some okChannel } "e1" applyCtx
        modelBoth).map (fun o => o.calls.map RunCall.args) =
      some ["--start --debug=false --local-port 8080 --remote-port 443"] ∧
    (NetworkDropExecutor.Exec okEnv { channel := some failChannel } "e2" applyCtx
        modelBothSwapped).map (fun o => o.calls.map RunCall.args) =
      some ["--start --debug=false --local-port 8080 --remote-port 443"] := by
  obtain ⟨⟨args, h1, h2⟩, _⟩ :=
    rendered_args_deterministic okEnv okEnv { channel := some okChannel }
      { channel := some failChannel } okChannel failChannel "e1" "e2" applyCtx applyCtx
      modelBoth modelBothSwapped rfl rfl rfl rfl rfl rfl (by decide) (by decide)
  have h3 : args = "--start --debug=false --local-port 8080 --remote-port 443" := by
    have h4 : (NetworkDropExecutor.Exec okEnv { channel := some okChannel } "e1" applyCtx
        modelBoth).map (fun o => o.calls.map RunCall.args) =
        some ["--start --debug=false --local-port 8080 --remote-port 443"] := by decide
    rw [h1] at h4
    simpa using h4
  rw [h1, h2, h3]
  exact ⟨rfl, rfl⟩

/-! ## Revert without state -/

/-- C8: revert never short-circuits on missing state. For every model and every context
carrying the destroy marker, with the tool check passing and a channel bound, `Exec` does
not panic, invokes `Channel.Run` in stop mode and leaves the executor unchanged; a second
revert with the same model issues the same invocation, and so does a revert that follows
any earlier call of `Exec` (an apply included). -/
theorem exec_revert_reaches_delegation (env : Env) (ne : NetworkDropExecutor) (c : Channel)
    (suid uid : String) (ctx : Context) (model : ExpModel)
    (htool : env.NewLocalChannel.IsCommandAvailable "iptables" = true)
    (hchan : ne.channel = some c)
    (hR : ctx.destroy = some uid) :
    ∃ o, ne.Exec env suid ctx model = some o ∧
      o.calls = [{ ctx := ctx, script := pathJoin [c.GetScriptPath, dropNetworkBin],
                   args := stopArgs env.Debug (model.ActionFlags.get "local-port")
                     (model.ActionFlags.get "remote-port") }] ∧
      o.executor = ne ∧
      (∃ o2, o.executor.Exec env suid ctx model = some o2 ∧ o2.calls = o.calls ∧
        o2.executor = ne) ∧
      (∀ (suid0 : String) (ctx0 : Context) (model0 : ExpModel),
        ∃ o0 o3, ne.Exec env suid0 ctx0 model0 = some o0 ∧
          o0.executor.Exec env suid ctx model = some o3 ∧ o3.calls = o.calls) := by
  have hargs : renderedArgs env ctx model =
      stopArgs env.Debug (model.ActionFlags.get "local-port")
        (model.ActionFlags.get "remote-port") := by
    simp [renderedArgs, hR]
  have h1 := Exec_delegates env ne c suid ctx model htool hchan
  refine ⟨_, h1, ?_, rfl, ⟨_, h1, rfl, rfl⟩, ?_⟩
  · rw [hargs]
  · intro suid0 ctx0 model0
    exact ⟨_, _, Exec_delegates env ne c suid0 ctx0 model0 htool hchan, h1, rfl⟩

theorem exec_revert_reaches_delegation_witness :
    ∃ o, NetworkDropExecutor.Exec okEnv { channel := some failChannel } "e1" destroyCtx
        model8080 = some o ∧
      o.calls = [{ ctx := destroyCtx, script := "/opt/chaosblade/bin/chaos_dropnetwork",
                   args := "--stop --debug=false --local-port 8080" }] ∧
      ∃ o2, o.executor.Exec okEnv "e1" destroyCtx model8080 = some o2 ∧
        o2.calls = o.calls := by
  obtain ⟨o, h1, h2, _, ⟨o2, h4, h5, _⟩, _⟩ :=
    exec_revert_reaches_delegation okEnv { channel := some failChannel } failChannel "e1"
      "e1" destroyCtx model8080 rfl rfl rfl
  refine ⟨o, h1, ?_, o2, h4, h5⟩
  rw [h2]
  decide

/-! ## Where the tool check looks -/

/-- C9 as stated fails in both directions: a bound channel that reports `iptables`
unavailable does not make `Exec` return `CommandNotFound` when the local channel finds the
tool, and a bound channel that reports it available does not make the check pass when the
local channel does not find it. -/
theorem exec_bound_channel_check_counterexample :
    (bareChannel.IsCommandAvailable "iptables" = false ∧
      NetworkDropExecutor.Exec okEnv { channel := some bareChannel } "e1" applyCtx
          model8080 =
        some { response := { success := true, errorCode := none, message := "",
                             result := none },
               calls := [{ ctx := applyCtx,
                           script := "/opt/chaosblade/bin/chaos_dropnetwork",
                           args := "--start --debug=false --local-port 8080" }],
               executor := { channel := some bareChannel } }) ∧
    (okChannel.IsCommandAvailable "iptables" = true ∧
      NetworkDropExecutor.Exec bareEnv { channel := some okChannel } "e1" applyCtx
          model8080 =
        some { response := ReturnFail ErrorKind.CommandNotFound "iptables command not found",
               calls := [], executor := { channel := some okChannel } }) := by
  refine ⟨⟨rfl, ?_⟩, rfl, rfl⟩
  rw [Exec_delegates okEnv { channel := some bareChannel } bareChannel "e1" applyCtx
    model8080 rfl rfl]
  have h1 : pathJoin [bareChannel.GetScriptPath, dropNetworkBin] =
      "/opt/chaosblade/bin/chaos_dropnetwork" := by decide
  have h2 : renderedArgs okEnv applyCtx model8080 =
      "--start --debug=false --local-port 8080" := by decide
  rw [h1, h2]
  rfl

/-- C9, amended: the precondition check of `Exec` is decided by the tool-availability
capability of the channel that `channel.NewLocalChannel()` creates, not of the bound
channel. If the local channel reports `iptables` unavailable, `Exec` returns
`CommandNotFound` without invoking `Run`; if it reports it available, the check passes and
`Exec` delegates to the bound channel; and what the bound channel itself reports about
command availability changes neither the response nor the invocation. -/
theorem exec_check_uses_local_channel (env : Env) (ne : NetworkDropExecutor) (c : Channel)
    (suid : String) (ctx : Context) (model : ExpModel) (hchan : ne.channel = some c) :
    (env.NewLocalChannel.IsCommandAvailable "iptables" = false →
      checkNetworkDropExpEnv env = some "iptables command not found" ∧
      ne.Exec env suid ctx model =
        some { response := ReturnFail ErrorKind.CommandNotFound "iptables command not found",
               calls := [], executor := ne }) ∧
    (env.NewLocalChannel.IsCommandAvailable "iptables" = true →
      checkNetworkDropExpEnv env = none ∧
      ∃ o, ne.Exec env suid ctx model = some o ∧
        o.response = c.Run ctx (pathJoin [c.GetScriptPath, dropNetworkBin])
          (renderedArgs env ctx model) ∧
        o.calls.length = 1) ∧
    (∀ f : String → Bool,
      ∃ o o', ne.Exec env suid ctx model = some o ∧
        NetworkDropExecutor.Exec env { channel := some { c with IsCommandAvailable := f } }
          suid ctx model = some o' ∧
        o'.response = o.response ∧ o'.calls = o.calls) := by
  refine ⟨?_, ?_, ?_⟩
  · intro h
    have h1 : checkNetworkDropExpEnv env = some "iptables command not found" := by
      rw [checkNetworkDropExpEnv_eq, h]; rfl
    refine ⟨h1, ?_⟩
    unfold NetworkDropExecutor.Exec
    rw [h1]
  · intro h
    refine ⟨by rw [checkNetworkDropExpEnv_eq, h]; rfl, _,
      Exec_delegates env ne c suid ctx model h hchan, rfl, rfl⟩
  · intro f
    cases h : env.NewLocalChannel.IsCommandAvailable "iptables" with
    | false =>
      have h1 : checkNetworkDropExpEnv env = some "iptables command not found" := by
        rw [checkNetworkDropExpEnv_eq, h]; rfl
      refine ⟨{ response := ReturnFail ErrorKind.CommandNotFound "iptables command not found",
                calls := [], executor := ne },
              { response := ReturnFail ErrorKind.CommandNotFound "iptables command not found",
                calls := [],
                executor := { channel := some { c with IsCommandAvailable := f } } },
              ?_, ?_, rfl, rfl⟩
      · unfold NetworkDropExecutor.Exec
        rw [h1]
      · unfold NetworkDropExecutor.Exec
        rw [h1]
    | true =>
      exact ⟨_, _, Exec_delegates env ne c suid ctx model h hchan,
        Exec_delegates env { channel := some { c with IsCommandAvailable := f } }
          { c with IsCommandAvailable := f } suid ctx model h rfl, rfl, rfl⟩

theorem exec_check_uses_local_channel_witness :
    checkNetworkDropExpEnv okEnv = none ∧
    ∃ o, NetworkDropExecutor.Exec okEnv { channel := some bareChannel } "e1" applyCtx
        model8080 = some o ∧
      o.response = { success := true, errorCode := none, message := "", result := none } ∧
      o.calls.length = 1 := by
  obtain ⟨h1, o, h2, h3, h4⟩ :=
    (exec_check_uses_local_channel okEnv { channel := some bareChannel } bareChannel "e1"
      applyCtx model8080 rfl).2.1 rfl
  exact ⟨h1, o, h2, h3, h4⟩

/-! ## Example fallback -/

/-- C10 as stated fails in both directions: an example whose introduction is empty and
whose command slice is empty but not nil has every field empty, yet `Example` returns it
unchanged instead of the family default; and a caller-supplied example equal to the family
default is returned, so the result is the default although no field is empty. -/
theorem example_fallback_counterexample :
    (emptySliceSpec.ActionExample.Introduction = "" ∧
      emptySliceSpec.ActionExample.ExampleCommands = some [] ∧
      emptySliceSpec.Example = emptySliceSpec.ActionExample ∧
      emptySliceSpec.Example ≠ defaultExample) ∧
    (defaultSuppliedSpec.ActionExample.Introduction ≠ "" ∧
      defaultSuppliedSpec.ActionExample.ExampleCommands ≠ none ∧
      defaultSuppliedSpec.ActionExample.ExampleCommands ≠ some [] ∧
      defaultSuppliedSpec.Example = defaultExample) := by
  have hsupplied : defaultSuppliedSpec.ActionExample = defaultExample := rfl
  refine ⟨by decide, ?_, ?_, ?_, ?_⟩
  · rw [hsupplied]; decide
  · rw [hsupplied]; decide
  · rw [hsupplied]; decide
  · unfold DropActionSpec.Example
    rw [hsupplied]
    exact ite_self _

/-- C10, amended: `Example` returns the family default (the network-shielding
introduction with the single command `blade create network drop`) when the introduction
of `ActionExample` is empty and its command slice is nil, and returns `ActionExample`
unchanged otherwise, an empty non-nil command slice included. So the result is
`ActionExample` unchanged if and only if the introduction is non-empty or the slice is not
nil, and the result is the family default if and only if the introduction is empty and the
slice is nil, or `ActionExample` is itself the family default. -/
theorem example_fallback (d : DropActionSpec) :
    d.Example =
      (if d.ActionExample.Introduction = "" ∧ d.ActionExample.ExampleCommands = none then
        defaultExample
      else d.ActionExample) ∧
    (d.Example = d.ActionExample ↔
      (d.ActionExample.Introduction ≠ "" ∨ d.ActionExample.ExampleCommands ≠ none)) ∧
    (d.Example = defaultExample ↔
      ((d.ActionExample.Introduction = "" ∧ d.ActionExample.ExampleCommands = none) ∨
        d.ActionExample = defaultExample)) ∧
    defaultExample.Introduction ≠ "" ∧
    defaultExample.ExampleCommands.map (fun cs => cs.map ExampleCommand.Command) =
      some ["blade create network drop"] := by
  have hdef : defaultExample.Introduction ≠ "" := by decide
  have h1 : d.Example =
      (if d.ActionExample.Introduction = "" ∧ d.ActionExample.ExampleCommands = none then
        defaultExample
      else d.ActionExample) := by
    unfold DropActionSpec.Example
    by_cases hi : d.ActionExample.Introduction = ""
    · cases hc : d.ActionExample.ExampleCommands <;> simp [hi, hc]
    · simp [hi]
  refine ⟨h1, ?_, ?_, hdef, by decide⟩
  · rw [h1]
    by_cases hcond :
        d.ActionExample.Introduction = "" ∧ d.ActionExample.ExampleCommands = none
    · rw [if_pos hcond]
      constructor
      · intro heq
        exact absurd (by rw [heq]; exact hcond.1) hdef
      · rintro (h | h)
        · exact absurd hcond.1 h
        · exact absurd hcond.2 h
    · rw [if_neg hcond]
      refine ⟨fun _ => ?_, fun _ => rfl⟩
      by_cases hi : d.ActionExample.Introduction = ""
      · exact Or.inr (fun hc => hcond ⟨hi, hc⟩)
      · exact Or.inl hi
  · rw [h1]
    by_cases hcond :
        d.ActionExample.Introduction = "" ∧ d.ActionExample.ExampleCommands = none
    · rw [if_pos hcond]
      exact ⟨fun _ => Or.inl hcond, fun _ => rfl⟩
    · rw [if_neg hcond]
      constructor
      · intro h; exact Or.inr h
      · rintro (h | h)
        · exact absurd h hcond
        · exact h

/-! ## Long description -/

/-- C11: `LongDesc` returns `ActionLongDesc` when it is a non-empty string and the family
default `Drop network data` when it is empty, so the result is never the empty string. -/
theorem longDesc_fallback (d : DropActionSpec) :
    d.LongDesc = (if d.ActionLongDesc = "" then "Drop network data" else d.ActionLongDesc) ∧
    d.LongDesc ≠ "" := by
  have h1 : d.LongDesc =
      (if d.ActionLongDesc = "" then "Drop network data" else d.ActionLongDesc) := by
    unfold DropActionSpec.LongDesc
    by_cases h : d.ActionLongDesc = "" <;> simp [h]
  refine ⟨h1, ?_⟩
  rw [h1]
  by_cases h : d.ActionLongDesc = ""
  · rw [if_pos h]; decide
  · rw [if_neg h]; exact h

/-! ## Order of the fail-fast checks -/

/-- C14 as stated fails in the only-if direction: a bound channel whose `Run` answers
with `ServerError` and the message `channel is nil` makes `Exec` return that response
although a channel is bound. -/
theorem exec_check_order_counterexample :
    (NetworkDropExecutor.mk (some nilMessageChannel)).channel ≠ none ∧
    ∃ o, NetworkDropExecutor.Exec okEnv { channel := some nilMessageChannel } "e1" applyCtx
        model8080 = some o ∧
      o.response = ReturnFail ErrorKind.ServerError "channel is nil" ∧
      o.response.errorCode = some ErrorKind.ServerError ∧
      o.response.message = "channel is nil" ∧
      o.calls.length = 1 := by
  refine ⟨by simp, _, Exec_delegates okEnv { channel := some nilMessageChannel }
    nilMessageChannel "e1" applyCtx model8080 rfl rfl, rfl, rfl, rfl, rfl⟩

/-- C14, amended: the tool check comes first, the wiring check second. `Exec` returns the
`ServerError` failure with message `channel is nil` without invoking `Channel.Run` if and
only if the required tool is available and no channel is bound; when the tool is missing
and no channel is bound at the same time, `Exec` returns `CommandNotFound`, not
`ServerError`. -/
theorem exec_check_order (env : Env) (ne : NetworkDropExecutor) (suid : String)
    (ctx : Context) (model : ExpModel) :
    ((∃ o, ne.Exec env suid ctx model = some o ∧
        o.response = ReturnFail ErrorKind.ServerError "channel is nil" ∧ o.calls = []) ↔
      (env.NewLocalChannel.IsCommandAvailable "iptables" = true ∧ ne.channel = none)) ∧
    ((env.NewLocalChannel.IsCommandAvailable "iptables" = false ∧ ne.channel = none) →
      ∃ o, ne.Exec env suid ctx model = some o ∧
        o.response = ReturnFail ErrorKind.CommandNotFound "iptables command not found" ∧
        o.response.errorCode ≠ some ErrorKind.ServerError ∧ o.calls = []) := by
  constructor
  · constructor
    · rintro ⟨o, h1, h2, h3⟩
      cases htool : env.NewLocalChannel.IsCommandAvailable "iptables" with
      | false =>
        exfalso
        unfold NetworkDropExecutor.Exec at h1
        rw [checkNetworkDropExpEnv_eq, htool] at h1
        simp only [Bool.false_eq_true, if_false, Option.some.injEq] at h1
        rw [← h1] at h2
        simp [ReturnFail] at h2
      | true =>
        refine ⟨rfl, ?_⟩
        cases hchan : ne.channel with
        | none => rfl
        | some c =>
          exfalso
          rw [Exec_delegates env ne c suid ctx model htool hchan] at h1
          simp only [Option.some.injEq] at h1
          rw [← h1] at h3
          simp at h3
    · rintro ⟨htool, hchan⟩
      refine ⟨{ response := ReturnFail ErrorKind.ServerError "channel is nil", calls := [],
                executor := ne }, ?_, rfl, rfl⟩
      unfold NetworkDropExecutor.Exec
      rw [checkNetworkDropExpEnv_eq, htool]
      simp [hchan]
  · rintro ⟨htool, _⟩
    refine ⟨{ response := ReturnFail ErrorKind.CommandNotFound "iptables command not found",
              calls := [], executor := ne }, ?_, rfl, by simp [ReturnFail], rfl⟩
    unfold NetworkDropExecutor.Exec
    rw [checkNetworkDropExpEnv_eq, htool]
    rfl

theorem exec_check_order_witness :
    (∃ o, NetworkDropExecutor.Exec okEnv { channel := none } "e1" applyCtx model8080 =
        some o ∧
      o.response = ReturnFail ErrorKind.ServerError "channel is nil" ∧ o.calls = []) ∧
    (∃ o, NetworkDropExecutor.Exec bareEnv { channel := none } "e1" applyCtx model8080 =
        some o ∧
      o.response = ReturnFail ErrorKind.CommandNotFound "iptables command not found" ∧
      o.response.errorCode ≠ some ErrorKind.ServerError ∧ o.calls = []) :=
  ⟨(exec_check_order okEnv { channel := none } "e1" applyCtx model8080).1.mpr ⟨rfl, rfl⟩,
   (exec_check_order bareEnv { channel := none } "e1" applyCtx model8080).2 ⟨rfl, rfl⟩⟩

/-! ## Declared matchers and the keys `Exec` reads -/

/-- C13: the spec built by `NewDropActionSpec` declares the matchers `local-port` and
`remote-port`, in that order and with distinct names, and no flags; the declared names are
the keys `Exec` reads: two models that agree on every declared name render the same
argument string whatever their other keys hold, and every declared name whose value is
supplied (non-empty) is rendered as `--<name> <value>`; the spec and its executor are both
named `drop`. -/
theorem exec_reads_declared (env : Env) (ne : NetworkDropExecutor) (c : Channel)
    (suid : String) (ctx : Context) (m1 m2 : ExpModel)
    (htool : env.NewLocalChannel.IsCommandAvailable "iptables" = true)
    (hchan : ne.channel = some c)
    (hagree : ∀ n ∈ declaredNames NewDropActionSpec,
      m1.ActionFlags.get n = m2.ActionFlags.get n) :
    NewDropActionSpec.ActionMatchers.map (fun fs => fs.map ExpFlag.Name) =
      some ["local-port", "remote-port"] ∧
    NewDropActionSpec.ActionFlags = some [] ∧
    declaredNames NewDropActionSpec = ["local-port", "remote-port"] ∧
    (declaredNames NewDropActionSpec).Nodup ∧
    NewDropActionSpec.Name = "drop" ∧
    NewDropActionSpec.ActionExecutor.Name = "drop" ∧
    (ne.Exec env suid ctx m1).map (fun o => o.calls.map RunCall.args) =
      (ne.Exec env suid ctx m2).map (fun o => o.calls.map RunCall.args) ∧
    (∀ n ∈ declaredNames NewDropActionSpec, m1.ActionFlags.get n ≠ "" →
      ∃ o pre post, ne.Exec env suid ctx m1 = some o ∧
        o.calls.map RunCall.args =
          [pre ++ "--" ++ n ++ " " ++ m1.ActionFlags.get n ++ post]) := by
  have hnames : declaredNames NewDropActionSpec = ["local-port", "remote-port"] := by decide
  have hl : m1.ActionFlags.get "local-port" = m2.ActionFlags.get "local-port" :=
    hagree _ (by rw [hnames]; simp)
  have hr : m1.ActionFlags.get "remote-port" = m2.ActionFlags.get "remote-port" :=
    hagree _ (by rw [hnames]; simp)
  refine ⟨by decide, by decide, hnames, by decide, rfl, rfl, ?_, ?_⟩
  · rw [Exec_delegates env ne c suid ctx m1 htool hchan,
      Exec_delegates env ne c suid ctx m2 htool hchan]
    simp [renderedArgs, hl, hr]
  · intro n hn hv
    rw [hnames] at hn
    have hmode : renderedArgs env ctx m1 =
        modeArgs ctx.destroy.isSome env.Debug (m1.ActionFlags.get "local-port")
          (m1.ActionFlags.get "remote-port") := by
      unfold renderedArgs modeArgs
      rfl
    have hor : renderedArgs env ctx m1 =
          startArgs env.Debug (m1.ActionFlags.get "local-port")
            (m1.ActionFlags.get "remote-port") ∨
        renderedArgs env ctx m1 =
          stopArgs env.Debug (m1.ActionFlags.get "local-port")
            (m1.ActionFlags.get "remote-port") := by
      rw [hmode]
      unfold modeArgs
      cases ctx.destroy.isSome
      · exact Or.inl rfl
      · exact Or.inr rfl
    have hcases : n = "local-port" ∨ n = "remote-port" := by simpa using hn
    rcases hcases with hn' | hn'
    · subst hn'
      have hpre : ∃ pre post, renderedArgs env ctx m1 =
          pre ++ "--" ++ "local-port" ++ " " ++ m1.ActionFlags.get "local-port" ++ post := by
        rcases hor with h | h
        · refine ⟨"--start --debug=" ++ (if env.Debug then "true" else "false") ++ " ",
            if m1.ActionFlags.get "remote-port" = "" then ""
            else " --remote-port " ++ m1.ActionFlags.get "remote-port", ?_⟩
          rw [h, startArgs_eq]
          simp only [hv, if_false]
          rw [show " --local-port " = " " ++ ("--" ++ ("local-port" ++ " ")) from by decide]
          simp only [String.append_assoc]
        · refine ⟨"--stop --debug=" ++ (if env.Debug then "true" else "false") ++ " ",
            if m1.ActionFlags.get "remote-port" = "" then ""
            else " --remote-port " ++ m1.ActionFlags.get "remote-port", ?_⟩
          rw [h, stopArgs_eq]
          simp only [hv, if_false]
          rw [show " --local-port " = " " ++ ("--" ++ ("local-port" ++ " ")) from by decide]
          simp only [String.append_assoc]
      obtain ⟨pre, post, hpp⟩ := hpre
      refine ⟨_, pre, post, Exec_delegates env ne c suid ctx m1 htool hchan, ?_⟩
      simp only [List.map, hpp]
    · subst hn'
      have hpre : ∃ pre post, renderedArgs env ctx m1 =
          pre ++ "--" ++ "remote-port" ++ " " ++ m1.ActionFlags.get "remote-port" ++
            post := by
        rcases hor with h | h
        · refine ⟨"--start --debug=" ++ (if env.Debug then "true" else "false") ++
            (if m1.ActionFlags.get "local-port" = "" then ""
              else " --local-port " ++ m1.ActionFlags.get "local-port") ++ " ", "", ?_⟩
          rw [h, startArgs_eq]
          simp only [hv, if_false]
          rw [show " --remote-port " = " " ++ ("--" ++ ("remote-port" ++ " ")) from by decide]
          simp only [String.append_assoc, String.append_empty]
        · refine ⟨"--stop --debug=" ++ (if env.Debug then "true" else "false") ++
            (if m1.ActionFlags.get "local-port" = "" then ""
              else " --local-port " ++ m1.ActionFlags.get "local-port") ++ " ", "", ?_⟩
          rw [h, stopArgs_eq]
          simp only [hv, if_false]
          rw [show " --remote-port " = " " ++ ("--" ++ ("remote-port" ++ " ")) from by decide]
          simp only [String.append_assoc, String.append_empty]
      obtain ⟨pre, post, hpp⟩ := hpre
      refine ⟨_, pre, post, Exec_delegates env ne c suid ctx m1 htool hchan, ?_⟩
      simp only [List.map, hpp]

theorem exec_reads_declared_witness :
    (NetworkDropExecutor.Exec okEnv { channel := some okChannel } "e1" destroyCtx
        modelBoth).map (fun o => o.calls.map RunCall.args) =
      (NetworkDropExecutor.Exec okEnv { channel := some okChannel } "e1" destroyCtx
        modelExtraKey).map (fun o => o.calls.map RunCall.args) ∧
    declaredNames NewDropActionSpec = ["local-port", "remote-port"] := by
  obtain ⟨_, _, h3, _, _, _, h7, _⟩ :=
    exec_reads_declared okEnv { channel := some okChannel } okChannel "e1" destroyCtx
      modelBoth modelExtraKey rfl rfl (by decide)
  exact ⟨h7, h3⟩

/-! ## Ambiguity of unescaped values -/

/-- C15: flag values are written unescaped. Restricted to port values without a space
character, the map from mode, debug value, local port and remote port to the argument
string is injective, so the mode and both port values can be recovered from the string;
with a value that contains a space two distinct inputs can render the same string, as the
local port `1 --remote-port 2` with no remote port and the local port `1` with the remote
port `2` do. -/
theorem modeArgs_injective_without_spaces (s1 s2 b1 b2 : Bool) (lp1 rp1 lp2 rp2 : String)
    (hl1 : ' ' ∉ lp1.data) (hr1 : ' ' ∉ rp1.data)
    (hl2 : ' ' ∉ lp2.data) (hr2 : ' ' ∉ rp2.data)
    (h : modeArgs s1 b1 lp1 rp1 = modeArgs s2 b2 lp2 rp2) :
    (s1 = s2 ∧ b1 = b2 ∧ lp1 = lp2 ∧ rp1 = rp2) ∧
    (∀ s b, modeArgs s b "1 --remote-port 2" "" = modeArgs s b "1" "2") ∧
    ("1 --remote-port 2", "") ≠ ("1", "2") := by
  have _ := hr1
  have _ := hr2
  refine ⟨modeArgs_inj_of_local s1 s2 b1 b2 lp1 rp1 lp2 rp2 hl1 hl2 h, ?_, by decide⟩
  intro s b
  cases s <;> cases b <;> decide

theorem modeArgs_injective_without_spaces_witness :
    modeArgs true false "8080" "443" = "--stop --debug=false --local-port 8080 --remote-port 443" ∧
    (true = true ∧ false = false ∧ "8080" = "8080" ∧ "443" = "443") ∧
    modeArgs false true "1 --remote-port 2" "" = modeArgs false true "1" "2" := by
  have h := modeArgs_injective_without_spaces true true false false "8080" "443" "8080" "443"
    (by decide) (by decide) (by decide) (by decide) rfl
  exact ⟨by decide, h.1, h.2.1 false true⟩

/-! ## The helper executable -/

/-- C12: for every bound channel with script root `s`, every model and both modes, the
executable passed to `Channel.Run` is `path.Join(s, "chaos_dropnetwork")`, with the fixed
helper name `chaos_dropnetwork`, and it is the same executable for apply and for revert;
for a script root that is a clean absolute path (a slash before each element, no element
empty, `.` or `..`) this is literally `s` followed by `/chaos_dropnetwork`. -/
theorem exec_script_path (env : Env) (ne : NetworkDropExecutor) (c : Channel)
    (suid suid' uid : String) (ctxA ctxR : Context) (modelA modelR : ExpModel)
    (htool : env.NewLocalChannel.IsCommandAvailable "iptables" = true)
    (hchan : ne.channel = some c)
    (hA : ctxA.destroy = none)
    (hR : ctxR.destroy = some uid) :
    dropNetworkBin = "chaos_dropnetwork" ∧
    (∃ oA oR, ne.Exec env suid ctxA modelA = some oA ∧
      ne.Exec env suid' ctxR modelR = some oR ∧
      oA.calls.map RunCall.script = [pathJoin [c.GetScriptPath, "chaos_dropnetwork"]] ∧
      oR.calls.map RunCall.script = [pathJoin [c.GetScriptPath, "chaos_dropnetwork"]] ∧
      oA.calls.map RunCall.args =
        [startArgs env.Debug (modelA.ActionFlags.get "local-port")
          (modelA.ActionFlags.get "remote-port")] ∧
      oR.calls.map RunCall.args =
        [stopArgs env.Debug (modelR.ActionFlags.get "local-port")
          (modelR.ActionFlags.get "remote-port")]) ∧
    (∀ segs : List (List Char), segs ≠ [] → (∀ x ∈ segs, plainElem x) →
      c.GetScriptPath.data = absoluteChars segs →
      pathJoin [c.GetScriptPath, "chaos_dropnetwork"] =
        c.GetScriptPath ++ "/" ++ "chaos_dropnetwork") := by
  refine ⟨rfl, ⟨_, _, Exec_delegates env ne c suid ctxA modelA htool hchan,
    Exec_delegates env ne c suid' ctxR modelR htool hchan, rfl, rfl, ?_, ?_⟩, ?_⟩
  · simp [renderedArgs, hA]
  · simp [renderedArgs, hR]
  · intro segs hne hall hs
    exact pathJoin_absolute c.GetScriptPath "chaos_dropnetwork" segs hs hne hall
      (by unfold plainElem; decide)

theorem exec_script_path_witness :
    ∃ oA oR, NetworkDropExecutor.Exec okEnv { channel := some okChannel } "e1" applyCtx
        model8080 = some oA ∧
      NetworkDropExecutor.Exec okEnv { channel := some okChannel } "e1" destroyCtx
        model8080 = some oR ∧
      oA.calls.map RunCall.script = ["/opt/chaosblade/bin/chaos_dropnetwork"] ∧
      oR.calls.map RunCall.script = ["/opt/chaosblade/bin/chaos_dropnetwork"] := by
  obtain ⟨_, ⟨oA, oR, h1, h2, h3, h4, _, _⟩, h5⟩ :=
    exec_script_path okEnv { channel := some okChannel } okChannel "e1" "e1" "e1" applyCtx
      destroyCtx model8080 model8080 rfl rfl rfl rfl
  have h6 : pathJoin [okChannel.GetScriptPath, "chaos_dropnetwork"] =
      "/opt/chaosblade/bin/chaos_dropnetwork" := by
    rw [h5 ["opt".data, "chaosblade".data, "bin".data] (by simp)
      (by unfold plainElem; decide) (by decide)]
    decide
  exact ⟨oA, oR, h1, h2, by rw [h3, h6], by rw [h4, h6]⟩

end ChaosBlade
